import Mathlib

/- Verification development for the indian-company-explorer repository.

   The embedding below translates the two source files
     - src/app/actions.ts      (in-process index build, search entry point, detail resolution)
     - src/scripts/build-index.ts (standalone index builder that writes the snapshot)
   into Lean definitions.  File contents are modelled through the row-iteration
   interface of the parsing libraries: a source file is given both as its list of
   text lines (the readline view used by the delimited-text backend) and as its
   ordered list of column-labelled rows (the XLSX.utils.sheet_to_json view used by
   the batch backend).  JavaScript truthiness on strings (undefined and "" are
   falsy) is modelled explicitly via Option String. -/

namespace CompanyExplorer

/- Character-level string primitives.  They mirror the JavaScript string
methods used by the source (trim, toLowerCase, startsWith spirit of the
regexes, endsWith, includes); they are written over character lists by
structural recursion so that every definition evaluates inside the kernel. -/

/-- Whitespace trim on both ends (JavaScript String trim). -/
def chTrim (cs : List Char) : List Char :=
  ((cs.dropWhile Char.isWhitespace).reverse.dropWhile Char.isWhitespace).reverse

def strTrim (s : String) : String :=
  String.mk (chTrim s.toList)

def chLower (cs : List Char) : List Char :=
  cs.map Char.toLower

/-- JavaScript toLowerCase (ASCII range, as Char.toLower). -/
def strLower (s : String) : String :=
  String.mk (chLower s.toList)

/-- Prefix test on character lists. -/
def prefixAt : List Char → List Char → Bool
  | [], _ => true
  | _ :: _, [] => false
  | a :: as, b :: bs => a == b && prefixAt as bs

/-- Substring occurrence on character lists (the semantics of the JavaScript
String includes method). -/
def infixAt : List Char → List Char → Bool
  | sub, [] => sub.isEmpty
  | sub, c :: rest => prefixAt sub (c :: rest) || infixAt sub rest

def strEndsWith (s suffix : String) : Bool :=
  prefixAt suffix.toList.reverse s.toList.reverse

/-- A column-labelled row, as produced by the batch reader or assembled from a
header and a parsed CSV line.  Later bindings shadow earlier ones, as for
assignments to a JavaScript object. -/
abbrev Row := List (String × String)

/-- Property access on a row object: the last binding for a key wins
(JavaScript assignment order). -/
def objGet (row : Row) (k : String) : Option String :=
  row.reverse.lookup k

/-- JavaScript truthiness of a possibly-absent string: undefined and "" are falsy. -/
def truthy : Option String → Bool
  | some v => v != ""
  | none => false

/-- JavaScript `a || b` on possibly-absent strings. -/
def jsOr (a b : Option String) : Option String :=
  if truthy a then a else b

/-- JavaScript `a || dflt` where the final operand is a present default string. -/
def jsOrD (a : Option String) (dflt : String) : String :=
  if truthy a then a.getD "" else dflt

/-- The in-memory index record (type SearchIndex in the source):
n = lowercased name, c = identifier (CIN), s = state, st = status,
f = source file name, i = 0-based row offset, r = original-case name. -/
structure SearchIndex where
  n : String
  c : String
  s : String
  st : String
  f : String
  i : Nat
  r : String
deriving DecidableEq

/-- A corpus file through the two black-box reader interfaces: the streaming
line view and the batch first-sheet row view of the same bytes. -/
structure SourceFile where
  lines : List String
  rows : List Row
deriving DecidableEq

/- ---------- minimal quoted-field CSV split (actions.ts lines 73-91,
   identically repeated at lines 246-258 and in build-index.ts lines 43-61) ---------- -/

/-- Character loop of the simple CSV parser: a double quote toggles the
in-quote state, a comma outside quotes ends the field, every other character
is appended; each pushed field is trimmed. -/
def splitLoop : List Char → Bool → List Char → List String → List String
  | [], _, cur, acc => acc ++ [String.mk (chTrim cur.reverse)]
  | ch :: rest, inQuote, cur, acc =>
    if ch == '"' then splitLoop rest (!inQuote) cur acc
    else if ch == ',' && !inQuote then
      splitLoop rest inQuote [] (acc ++ [String.mk (chTrim cur.reverse)])
    else splitLoop rest inQuote (ch :: cur) acc

def parseCsvLine (line : String) : List String :=
  splitLoop line.toList false [] []

/-- v.replace(regex anchored-edge-quote pattern, "") : removes one leading and one
trailing double quote if present. -/
def stripEdgeQuotes (s : String) : String :=
  let c1 := match s.toList with
    | '"' :: rest => rest
    | cs => cs
  String.mk (if c1.getLast? == some '"' then c1.dropLast else c1)

/-- cleanValues: split the line, then strip bounding quotes and trim each field. -/
def cleanLine (line : String) : List String :=
  (parseCsvLine line).map (fun v => strTrim (stripEdgeQuotes v))

/- ---------- header detection (actions.ts lines 94-97) ----------
   Each header cell is tested with an unanchored case-insensitive regular
   expression.  Each of the four patterns is equivalent to case-insensitive
   substring containment of a single keyword:
     name:   pattern alternatives (Company followed by Name) and (Name); a cell
             matches iff it contains "name" ignoring case, since the bare
             second alternative subsumes the first.
     cin:    single alternative CIN: containment of "cin".
     state:  alternatives State and CompanyStateCode; the second contains the
             first, so matching is containment of "state".
     status: alternatives Status and CompanyStatus; likewise containment of
             "status". -/

def containsCI (s pat : String) : Bool :=
  infixAt (chLower pat.toList) (chLower s.toList)

def isNameHeader (h : String) : Bool := containsCI h "name"

def isCinHeader (h : String) : Bool := containsCI h "cin"

def isStateHeader (h : String) : Bool := containsCI h "state"

def isStatusHeader (h : String) : Bool := containsCI h "status"

def headerNameIdx (hv : List String) : Option Nat := hv.findIdx? isNameHeader

def headerCinIdx (hv : List String) : Option Nat := hv.findIdx? isCinHeader

def headerStateIdx (hv : List String) : Option Nat := hv.findIdx? isStateHeader

def headerStatusIdx (hv : List String) : Option Nat := hv.findIdx? isStatusHeader

/-- Field extraction for the streaming backend (actions.ts lines 103-106):
(idx >= 0 ? cleanValues[idx] : "") || dflt.  A findIndex miss (none), an
out-of-range access (undefined) and an empty field all yield the default. -/
def extractAt (vals : List String) (idx : Option Nat) (dflt : String) : String :=
  match idx with
  | none => dflt
  | some k => let v := vals.getD k ""; if v = "" then dflt else v

/-- Loop body of the delimited-text index build (actions.ts lines 102-118):
parse and clean the line, extract the four canonical fields, and append a
record unless the extracted name is the literal "Unknown". -/
def rowRecord? (f : String) (ni ci si sti : Option Nat) (idx : Nat) (line : String) :
    Option SearchIndex :=
  let vals := cleanLine line
  let name := extractAt vals ni "Unknown"
  let cin := extractAt vals ci ""
  let state := extractAt vals si ""
  let status := extractAt vals sti ""
  if name = "Unknown" then none
  else some { n := strLower name, c := cin, s := state, st := status, f := f, i := idx, r := name }

/-- Data-row loop of the delimited-text backend: the offset counter idx is
incremented for every data row, whether or not a record was appended
(actions.ts line 119: index++ runs unconditionally). -/
def buildCsvRows (f : String) (ni ci si sti : Option Nat) : Nat → List String → List SearchIndex
  | _, [] => []
  | idx, line :: rest =>
    match rowRecord? f ni ci si sti idx line with
    | some rec => rec :: buildCsvRows f ni ci si sti (idx + 1) rest
    | none => buildCsvRows f ni ci si sti (idx + 1) rest

/-- Delimited-text backend for one file: the first line fixes the four column
indices, the remaining lines are data rows numbered from 0. -/
def buildCsvFile (f : String) : List String → List SearchIndex
  | [] => []
  | headerLine :: dataRows =>
    let hv := cleanLine headerLine
    buildCsvRows f (headerNameIdx hv) (headerCinIdx hv) (headerStateIdx hv) (headerStatusIdx hv)
      0 dataRows

/- ---------- batch backend (actions.ts lines 122-143, identical in
   build-index.ts lines 92-113) ---------- -/

/-- row CompanyName or row Company Name or row Name or "Unknown"
(also used verbatim during detail resolution, actions.ts lines 274 and 295). -/
def batchName (row : Row) : String :=
  jsOrD (jsOr (jsOr (objGet row "CompanyName") (objGet row "Company Name")) (objGet row "Name"))
    "Unknown"

/-- One record per batch row; note that unlike the delimited-text backend the
batch backend pushes unconditionally: no check against "Unknown" is made
(actions.ts lines 128-143). -/
def batchRecord (f : String) (idx : Nat) (row : Row) : SearchIndex :=
  { n := strLower (batchName row)
    c := jsOrD (objGet row "CIN") ""
    s := jsOrD (jsOr (objGet row "CompanyStateCode") (objGet row "State")) ""
    st := jsOrD (jsOr (objGet row "CompanyStatus") (objGet row "Status")) ""
    f := f
    i := idx
    r := batchName row }

/-- data.forEach((row, idx) => newIndex.push(...)). -/
def buildBatchRows (f : String) : Nat → List Row → List SearchIndex
  | _, [] => []
  | idx, row :: rest => batchRecord f idx row :: buildBatchRows f (idx + 1) rest

def buildBatchFile (f : String) (rows : List Row) : List SearchIndex :=
  buildBatchRows f 0 rows

/-- Backend choice by extension: .csv files stream line by line, everything else
goes through the batch reader. -/
def buildFile (f : String) (c : SourceFile) : List SearchIndex :=
  if strEndsWith f ".csv" then buildCsvFile f c.lines else buildBatchFile f c.rows

/-- File filter of the fallback scan in actions.ts line 58: keep names matching
the extension pattern (ending in .csv, .xlsx, .xls or .json); there is no
further exclusion in that scan. -/
def scanAccept (f : String) : Bool :=
  strEndsWith f ".csv" || strEndsWith f ".xlsx" || strEndsWith f ".xls" || strEndsWith f ".json"

/-- File filter of build-index.ts lines 26-28: the same extension test, plus an
explicit skip of the snapshot file search-index.json. -/
def scriptAccept (f : String) : Bool :=
  scanAccept f && f != "search-index.json"

/-- Records produced by the fallback scan of actions.ts over a directory
listing (file name paired with its content), in listing order. -/
def buildScanRecords (files : List (String × SourceFile)) : List SearchIndex :=
  ((files.filter (fun fc => scanAccept fc.1)).map (fun fc => buildFile fc.1 fc.2)).flatten

/-- Records produced by the standalone builder build-index.ts over a directory
listing; this is what gets serialized into the snapshot file. -/
def buildScript (files : List (String × SourceFile)) : List SearchIndex :=
  ((files.filter (fun fc => scriptAccept fc.1)).map (fun fc => buildFile fc.1 fc.2)).flatten

/- ---------- rate limiter (imported from src/app/lib/auth, outside the
   available sources) ---------- -/

structure RateLimitEntry where
  count : Nat
  windowStart : Nat
deriving DecidableEq

abbrev RateState := List (String × RateLimitEntry)

def WINDOW_MS : Nat := 24 * 60 * 60 * 1000

/-- Insert-or-overwrite for the per-identity map. -/
def rlSet (st : RateState) (ip : String) (e : RateLimitEntry) : RateState :=
  (ip, e) :: st.filter (fun p => p.1 != ip)

/-- Modelled from the spec: checkRateLimit lives in src/app/lib/auth.ts, which
is not among the available sources.  Spec 4.6: one entry per identity; a
first-ever check yields allowed with remaining 9 (cap 10 minus this query);
the window resets 24 hours after the first query of the current window; once
the window count reaches 10 the caller is denied with remaining 0. -/
def checkRateLimit (now : Nat) (ip : String) (st : RateState) : (Bool × Nat) × RateState :=
  match st.lookup ip with
  | none => ((true, 9), rlSet st ip ⟨1, now⟩)
  | some e =>
    if e.windowStart + WINDOW_MS ≤ now then ((true, 9), rlSet st ip ⟨1, now⟩)
    else if 10 ≤ e.count then ((false, 0), st)
    else ((true, 10 - (e.count + 1)), rlSet st ip ⟨e.count + 1, e.windowStart⟩)

/- ---------- process-wide index state and environment ---------- -/

/-- Observable effects of a call, recorded in order: a rate-limit check, a read
of the snapshot file, a directory scan, a read of one corpus file. -/
inductive Ev where
  | rateCheck (ip : String)
  | loadSnapshot
  | scanDir
  | readFile (f : String)
deriving DecidableEq

/-- Result of reading and JSON.parsing the snapshot file when it exists:
either the parse throws (corrupt) or it yields a record list. -/
inductive SnapParse where
  | corrupt
  | parsed (l : List SearchIndex)
deriving DecidableEq

/-- The process-wide mutable state: GLOBAL_INDEX (null modelled as none),
IS_INDEXING, the rate limiter table, and the event trace. -/
structure Sys where
  index : Option (List SearchIndex)
  isIndexing : Bool
  rate : RateState
  events : List Ev
deriving DecidableEq

/-- The call environment: current time, the x-forwarded-for header value, the
data directory (existence and listing) and the snapshot file. -/
structure Env where
  now : Nat
  forwardedFor : Option String
  dataDirExists : Bool
  files : List (String × SourceFile)
  snapshot : Option SnapParse
deriving DecidableEq

/-- Fallback corpus scan of actions.ts lines 43-152 (reached when no snapshot
loaded).  On a missing data directory GLOBAL_INDEX is set to the empty list and
the function returns early, leaving IS_INDEXING set (source line 52 returns
before line 151). -/
def scanBuild (env : Env) (s : Sys) : Sys :=
  if !env.dataDirExists then
    { s with index := some [] }
  else
    let accepted := env.files.filter (fun fc => scanAccept fc.1)
    { s with
      index := some (buildScanRecords env.files)
      isIndexing := false
      events := s.events ++ [Ev.scanDir] ++ accepted.map (fun fc => Ev.readFile fc.1) }

/-- buildIndex of actions.ts lines 25-153: no-op when the index is already set
(a JavaScript array, even empty, is truthy) or a build is flagged as running;
otherwise try to load the snapshot; on a corrupt snapshot fall back to the
corpus scan. -/
def buildIndex (env : Env) (s : Sys) : Sys :=
  if s.index.isSome || s.isIndexing then s
  else
    let s1 : Sys := { s with isIndexing := true }
    match env.snapshot with
    | some sp =>
      let s2 : Sys := { s1 with events := s1.events ++ [Ev.loadSnapshot] }
      match sp with
      | SnapParse.parsed l => { s2 with index := some l, isIndexing := false }
      | SnapParse.corrupt => scanBuild env s2
    | none => scanBuild env s1

/- ---------- match phase (actions.ts lines 208-217) ---------- -/

/-- entry.n.includes(lowerQuery) or (entry.c truthy and
entry.c.toLowerCase().includes(lowerQuery)). -/
def isMatch (lq : String) (e : SearchIndex) : Bool :=
  infixAt lq.toList e.n.toList || (e.c != "" && infixAt lq.toList (chLower e.c.toList))

/-- The scan loop: push each matching entry and stop as soon as 50 matches
have been collected. -/
def matchLoop (lq : String) : List SearchIndex → List SearchIndex → List SearchIndex
  | acc, [] => acc
  | acc, e :: rest =>
    if isMatch lq e then
      let acc2 := acc ++ [e]
      if 50 ≤ acc2.length then acc2 else matchLoop lq acc2 rest
    else matchLoop lq acc rest

def matchPhase (lq : String) (idx : List SearchIndex) : List SearchIndex :=
  matchLoop lq [] idx

/- ---------- grouping and detail resolution (actions.ts lines 219-307) ---------- -/

/-- Insertion-order grouping of matches by source file, appending each match's
row offset to its file's list (Map plus push). -/
def addGroup : List (String × List Nat) → String → Nat → List (String × List Nat)
  | [], f, i => [(f, [i])]
  | (g, is) :: rest, f, i =>
    if g = f then (g, is ++ [i]) :: rest else (g, is) :: addGroup rest f i

def groupByFile (matched : List SearchIndex) : List (String × List Nat) :=
  matched.foldl (fun m e => addGroup m e.f e.i) []

/-- A full result row (type Company): canonical fields plus the raw row. -/
structure Company where
  id : String
  name : String
  state : String
  cin : Option String
  status : Option String
  raw : Row
deriving DecidableEq

/-- Reconstruction of a result row from a raw row (actions.ts lines 272-279 and
293-300, which are textually identical): id is file-dash-offset, the canonical
fields use the same truthiness chains as the index build, cin and status may be
absent (no default is supplied for them). -/
def mkCompany (f : String) (idx : Nat) (row : Row) : Company :=
  { id := f ++ "-" ++ Nat.repr idx
    name := batchName row
    state := jsOrD (jsOr (objGet row "CompanyStateCode") (objGet row "State")) ""
    cin := objGet row "CIN"
    status := jsOr (objGet row "CompanyStatus") (objGet row "Status")
    raw := row }

/-- row object assembled from the header line and a data line
(header.forEach((h, i) => row[h] = cleanValues[i] || "")). -/
def csvRowObj (header vals : List String) : Row :=
  header.enum.map (fun p => (p.2, vals.getD p.1 ""))

/-- Detail resolution walk for a delimited-text file: data rows are numbered
from 0 by a running counter; a row is reconstructed whenever its counter value
is among the requested offsets. -/
def resolveCsvRows (f : String) (header : List String) (targets : List Nat) :
    Nat → List String → List Company
  | _, [] => []
  | k, line :: rest =>
    if targets.contains k then
      mkCompany f k (csvRowObj header (cleanLine line)) :: resolveCsvRows f header targets (k + 1) rest
    else resolveCsvRows f header targets (k + 1) rest

def resolveCsv (f : String) (targets : List Nat) : List String → List Company
  | [] => []
  | headerLine :: dataRows => resolveCsvRows f (cleanLine headerLine) targets 0 dataRows

/-- Detail resolution for a batch file (actions.ts lines 290-302): for each
requested offset, data[idx] is looked up; an absent row (offset out of range)
is skipped silently and the remaining offsets are still processed. -/
def resolveBatch (f : String) (rows : List Row) : List Nat → List Company
  | [] => []
  | i :: rest =>
    match rows.get? i with
    | some row => mkCompany f i row :: resolveBatch f rows rest
    | none => resolveBatch f rows rest

/-- Per-file resolution loop (actions.ts lines 231-307): each file group is
opened (recorded as a read event); a file that cannot be opened is skipped and
contributes no rows (the per-file try/catch at line 304). -/
def resolveAll (env : Env) : Sys → List (String × List Nat) → List Company × Sys
  | s, [] => ([], s)
  | s, (f, idxs) :: rest =>
    let s1 : Sys := { s with events := s.events ++ [Ev.readFile f] }
    let here : List Company :=
      match env.files.lookup f with
      | none => []
      | some c =>
        if strEndsWith f ".csv" then resolveCsv f idxs c.lines else resolveBatch f c.rows idxs
    let pr := resolveAll env s1 rest
    (here ++ pr.1, pr.2)

/- ---------- search entry point (actions.ts lines 178-318) ---------- -/

structure SearchOut where
  results : List Company
  error : Option String
  remaining : Option Int
  isPremium : Option Bool
deriving DecidableEq

def noResult : SearchOut :=
  { results := [], error := none, remaining := none, isPremium := none }

def denialMsg : String :=
  "Free search limit exceeded (10/day). Please login for unlimited access."

def denialOut : SearchOut :=
  { results := [], error := some denialMsg, remaining := some 0, isPremium := some false }

/-- headersList.get x-forwarded-for with the loopback fallback (an absent or
empty header value falls back to 127.0.0.1). -/
def resolveIp (env : Env) : String :=
  match env.forwardedFor with
  | some v => if v = "" then "127.0.0.1" else v
  | none => "127.0.0.1"

/-- Body after the gate (actions.ts lines 200-313): build the index if the
global is null, bail out with a bare empty result if it is still null, then
match, group, and resolve; the returned metadata carries the remaining quota
(minus one for privileged callers) and the premium flag. -/
def searchBody (env : Env) (query : String) (isLoggedIn : Bool) (remaining : Int) (s : Sys) :
    SearchOut × Sys :=
  let s1 := if s.index.isNone then buildIndex env s else s
  match s1.index with
  | none => (noResult, s1)
  | some idx =>
    let matched := matchPhase (strLower query) idx
    let pr := resolveAll env s1 (groupByFile matched)
    ({ results := pr.1, error := none, remaining := some remaining, isPremium := some isLoggedIn },
      pr.2)

/-- searchCompanies: short queries return immediately; unauthenticated callers
are gated by the rate limiter before any index work; denied callers get the
structured denial result. -/
def searchCompanies (env : Env) (query : String) (isLoggedIn : Bool) (s : Sys) :
    SearchOut × Sys :=
  if query.length < 2 then (noResult, s)
  else if isLoggedIn then
    searchBody env query true (-1) s
  else
    let ip := resolveIp env
    let res := checkRateLimit env.now ip s.rate
    let s1 : Sys := { s with rate := res.2, events := s.events ++ [Ev.rateCheck ip] }
    if res.1.1 then searchBody env query false (Int.ofNat res.1.2) s1
    else (denialOut, s1)

/- ---------- snapshot serialization (build-index.ts line 118,
   actions.ts lines 33-34) ---------- -/

/-- Generic structured-data values, the image of JSON.stringify slash the
domain of JSON.parse for the record shape at hand. -/
inductive Json where
  | str (s : String)
  | num (n : Nat)
  | arr (xs : List Json)
  | obj (fields : List (String × Json))

def encodeRecord (r : SearchIndex) : Json :=
  Json.obj
    [("n", Json.str r.n), ("c", Json.str r.c), ("s", Json.str r.s), ("st", Json.str r.st),
     ("f", Json.str r.f), ("i", Json.num r.i), ("r", Json.str r.r)]

def encodeIndex (l : List SearchIndex) : Json :=
  Json.arr (l.map encodeRecord)

def jGetStr (fields : List (String × Json)) (k : String) : Option String :=
  match fields.lookup k with
  | some (Json.str s) => some s
  | _ => none

def jGetNum (fields : List (String × Json)) (k : String) : Option Nat :=
  match fields.lookup k with
  | some (Json.num n) => some n
  | _ => none

def decodeRecord : Json → Option SearchIndex
  | Json.obj fields =>
    match jGetStr fields "n", jGetStr fields "c", jGetStr fields "s", jGetStr fields "st",
        jGetStr fields "f", jGetNum fields "i", jGetStr fields "r" with
    | some n, some c, some s, some st, some f, some i, some r =>
      some { n := n, c := c, s := s, st := st, f := f, i := i, r := r }
    | _, _, _, _, _, _, _ => none
  | _ => none

def decodeList : List Json → Option (List SearchIndex)
  | [] => some []
  | j :: rest =>
    match decodeRecord j, decodeList rest with
    | some r, some rs => some (r :: rs)
    | _, _ => none

def decodeIndex : Json → Option (List SearchIndex)
  | Json.arr xs => decodeList xs
  | _ => none

/- ------------------------------------------------------------------ -/
/- Theorems                                                            -/
/- ------------------------------------------------------------------ -/

/-- The match loop with a partially filled accumulator collects the first
matches in scan order until the accumulator holds 50 entries. -/
theorem matchLoop_take (lq : String) (l : List SearchIndex) :
    ∀ acc : List SearchIndex, acc.length < 50 →
      matchLoop lq acc l = acc ++ (l.filter (isMatch lq)).take (50 - acc.length) := by
  induction l with
  | nil => intro acc _; simp [matchLoop]
  | cons e rest ih =>
    intro acc h
    cases hm : isMatch lq e with
    | false => simpa [matchLoop, hm, List.filter_cons] using ih acc h
    | true =>
      simp only [matchLoop, hm, if_true, List.length_append, List.length_cons,
        List.length_nil, List.filter_cons]
      by_cases hc : 50 ≤ acc.length + 1
      · have hacc : acc.length = 49 := by omega
        simp [hc, hacc]
      · have h2 : (acc ++ [e]).length < 50 := by simp; omega
        have hk : 50 - acc.length = (50 - (acc.length + 1)) + 1 := by omega
        simp only [hc, if_false, ih (acc ++ [e]) h2, List.length_append, List.length_cons,
          List.length_nil, hk, List.take_succ_cons, List.append_assoc, List.cons_append,
          List.nil_append]

/-- Claim C1: when the index holds at least 51 records matching the query, the
match phase of searchCompanies returns exactly 50 records, namely the first 50
matching records in index scan order (the loop stops at the 50th match, so
later matches are never considered). -/
theorem c1_match_cap_first50 (lq : String) (idx : List SearchIndex)
    (h : 50 < (idx.filter (isMatch lq)).length) :
    matchPhase lq idx = (idx.filter (isMatch lq)).take 50 ∧
      (matchPhase lq idx).length = 50 := by
  have he : matchPhase lq idx = (idx.filter (isMatch lq)).take 50 := by
    have := matchLoop_take lq idx [] (by simp)
    simpa [matchPhase] using this
  refine ⟨he, ?_⟩
  rw [he, List.length_take]
  omega

def recAB : SearchIndex := ⟨"ab", "", "", "", "f.csv", 0, "ab"⟩

def idx51 : List SearchIndex := List.replicate 51 recAB

theorem c1_match_cap_first50_witness :
    50 < (idx51.filter (isMatch "ab")).length ∧
      (matchPhase "ab" idx51 = (idx51.filter (isMatch "ab")).take 50 ∧
        (matchPhase "ab" idx51).length = 50) :=
  ⟨by decide, c1_match_cap_first50 "ab" idx51 (by decide)⟩

/-- Claim C2: a query shorter than 2 characters returns the bare empty result
and leaves the whole process state untouched: no rate-limit entry is read or
written, no snapshot load, directory scan or file read happens, and the index
cache is unchanged (the state, events included, is returned as is). -/
theorem c2_short_query_noop (env : Env) (q : String) (li : Bool) (s : Sys)
    (h : q.length < 2) :
    searchCompanies env q li s = (noResult, s) := by
  simp [searchCompanies, h]

def env0 : Env := { now := 0, forwardedFor := none, dataDirExists := true, files := [], snapshot := none }

def sys0 : Sys := { index := none, isIndexing := false, rate := [], events := [] }

theorem c2_short_query_noop_witness :
    "a".length < 2 ∧ searchCompanies env0 "a" true sys0 = (noResult, sys0) :=
  ⟨by decide, c2_short_query_noop env0 "a" true sys0 (by decide)⟩

/-- Claim C3: an unauthenticated caller whose rate-limit check denies access
gets a normal (non-thrown) result carrying the empty result list, remaining 0
and the human-readable reason, and the only state change of the call is the
rate-limit check itself: the index cache and building flag are untouched and
the event trace records no snapshot load, directory scan or file read. -/
theorem c3_rate_denial (env : Env) (q : String) (s : Sys) (hlen : 2 ≤ q.length)
    (hdeny : (checkRateLimit env.now (resolveIp env) s.rate).1.1 = false) :
    searchCompanies env q false s =
      (denialOut,
        { s with
          rate := (checkRateLimit env.now (resolveIp env) s.rate).2,
          events := s.events ++ [Ev.rateCheck (resolveIp env)] }) := by
  have hq : ¬ q.length < 2 := by omega
  simp [searchCompanies, hq, hdeny]

def sysLimited : Sys :=
  { index := none, isIndexing := false, rate := [("127.0.0.1", ⟨10, 0⟩)], events := [] }

theorem c3_rate_denial_witness :
    (2 ≤ "ab".length ∧
        (checkRateLimit env0.now (resolveIp env0) sysLimited.rate).1.1 = false) ∧
      searchCompanies env0 "ab" false sysLimited =
        (denialOut,
          { sysLimited with
            rate := (checkRateLimit env0.now (resolveIp env0) sysLimited.rate).2,
            events := sysLimited.events ++ [Ev.rateCheck (resolveIp env0)] }) :=
  ⟨⟨by decide, by decide⟩, c3_rate_denial env0 "ab" sysLimited (by decide) (by decide)⟩

/-- The data-row loop of the delimited-text backend is the filterMap of the
per-row extraction over the rows paired with their positions counted from the
starting offset: the counter advances on every data row, whether or not the
row contributed a record. -/
theorem buildCsvRows_enumFrom (f : String) (ni ci si sti : Option Nat) (rows : List String) :
    ∀ k, buildCsvRows f ni ci si sti k rows =
      (List.enumFrom k rows).filterMap (fun p => rowRecord? f ni ci si sti p.1 p.2) := by
  induction rows with
  | nil => intro k; simp [buildCsvRows]
  | cons line rest ih =>
    intro k
    cases hr : rowRecord? f ni ci si sti k line with
    | none => simp [buildCsvRows, hr, List.enumFrom, List.filterMap_cons, ih]
    | some r0 => simp [buildCsvRows, hr, List.enumFrom, List.filterMap_cons, ih]

/-- Claim C6: for a delimited-text file, the index records are exactly the
per-row extraction applied to the data rows enumerated from 0 (header
excluded): the row_offset stored in each appended record equals that row's
0-based position among all data rows of the file, and rows skipped for having
name "Unknown" (rowRecord? returning none) still advance the position, so
index offsets align with the 0-based running counter that the detail
resolution walk (resolveCsvRows) uses over the same data rows. -/
theorem c6_offset_positional (f headerLine : String) (dataRows : List String) :
    buildCsvFile f (headerLine :: dataRows) =
      (dataRows.enum).filterMap (fun p =>
        rowRecord? f (headerNameIdx (cleanLine headerLine)) (headerCinIdx (cleanLine headerLine))
          (headerStateIdx (cleanLine headerLine)) (headerStatusIdx (cleanLine headerLine))
          p.1 p.2) := by
  simp only [buildCsvFile]
  rw [buildCsvRows_enumFrom]
  rfl

/-- A record produced by the delimited-text per-row extraction never carries
the display name "Unknown" (the push is guarded by that very test). -/
theorem rowRecord?_r_ne (f : String) (ni ci si sti : Option Nat) (idx : Nat) (line : String)
    (r0 : SearchIndex) (h : rowRecord? f ni ci si sti idx line = some r0) :
    r0.r ≠ "Unknown" := by
  simp only [rowRecord?] at h
  split at h
  · exact absurd h (by simp)
  · next hne => cases h; exact hne

/-- Claim C4, counterexample to the claim as stated: the batch backend appends
a record even when the extracted name is "Unknown".  A batch row with no name
column extracts the name "Unknown", yet one IndexRecord is appended for it. -/
theorem c4_counterexample :
    batchName [] = "Unknown" ∧
      buildBatchFile "data.json" [[]] =
        [{ n := "unknown", c := "", s := "", st := "", f := "data.json", i := 0, r := "Unknown" }] := by
  constructor
  · rfl
  · rfl

/-- Claim C4 as amended: only the streaming delimited-text backend excludes
rows whose extracted name is "Unknown" (no record it appends carries that
name); the batch spreadsheet slash JSON backend appends one IndexRecord per
source row unconditionally, including rows whose extracted name is "Unknown". -/
theorem c4_amended_unknown_filter :
    (∀ (f : String) (lines : List String) (r0 : SearchIndex),
        r0 ∈ buildCsvFile f lines → r0.r ≠ "Unknown") ∧
      (∀ (f : String) (rows : List Row) (k : Nat),
        (buildBatchRows f k rows).length = rows.length) := by
  constructor
  · intro f lines r0 h
    cases lines with
    | nil => simp [buildCsvFile] at h
    | cons headerLine dataRows =>
      simp only [buildCsvFile] at h
      rw [buildCsvRows_enumFrom] at h
      rcases List.mem_filterMap.mp h with ⟨p, _, hp⟩
      exact rowRecord?_r_ne _ _ _ _ _ _ _ _ hp
  · intro f rows
    induction rows with
    | nil => intro k; rfl
    | cons row rest ih => intro k; simp [buildBatchRows, ih]

theorem c4_amended_unknown_filter_witness :
    (⟨"acme", "", "", "", "a.csv", 0, "Acme"⟩ : SearchIndex) ∈
        buildCsvFile "a.csv" ["Name", "Acme"] ∧
      (⟨"acme", "", "", "", "a.csv", 0, "Acme"⟩ : SearchIndex).r ≠ "Unknown" :=
  ⟨by decide,
    c4_amended_unknown_filter.1 "a.csv" ["Name", "Acme"] _ (by decide)⟩

def envCorruptSnap : Env :=
  { now := 0, forwardedFor := none, dataDirExists := true,
    files := [("search-index.json", { lines := [], rows := [] })],
    snapshot := some SnapParse.corrupt }

/-- Claim C5 (code bug): the file filter of the fallback scan in actions.ts
accepts the snapshot file name search-index.json (it ends in .json and the
scan has no further exclusion), whereas the standalone builder's filter rejects
it; consequently, when the fallback scan runs with a corrupt snapshot present
in the data directory, the snapshot file itself is scanned as a corpus file
(the build records a read of it). -/
theorem c5_snapshot_not_excluded :
    scanAccept "search-index.json" = true ∧
      scriptAccept "search-index.json" = false ∧
      Ev.readFile "search-index.json" ∈ (buildIndex envCorruptSnap sys0).events := by
  refine ⟨by decide, by decide, by decide⟩

/-- Claim C7: the build coordinator performs the build or snapshot load at
most once across sequential calls.  With the index already set the call
returns the state unchanged (no load, no scan, no event); with the building
flag observed set it likewise does nothing; and once a call has completed
with the index set, a repeated call is the identity. -/
theorem c7_build_once (env : Env) (s : Sys) :
    (s.index.isSome = true → buildIndex env s = s) ∧
      (s.isIndexing = true → buildIndex env s = s) ∧
      ((buildIndex env s).index.isSome = true →
        buildIndex env (buildIndex env s) = buildIndex env s) := by
  have hready : ∀ t : Sys, t.index.isSome = true → buildIndex env t = t := by
    intro t ht
    simp [buildIndex, ht]
  refine ⟨hready s, ?_, ?_⟩
  · intro h
    simp [buildIndex, h]
  · intro h
    exact hready _ h

theorem c7_build_once_witness :
    ((buildIndex env0 sys0).index.isSome = true) ∧
      buildIndex env0 (buildIndex env0 sys0) = buildIndex env0 sys0 :=
  ⟨by decide, (c7_build_once env0 sys0).2.2 (by decide)⟩

/-- Decoding inverts encoding on a single record. -/
theorem decodeRecord_encodeRecord (r : SearchIndex) :
    decodeRecord (encodeRecord r) = some r := rfl

theorem decodeList_map_encode (l : List SearchIndex) :
    decodeList (l.map encodeRecord) = some l := by
  induction l with
  | nil => rfl
  | cons r rest ih => simp [decodeList, decodeRecord_encodeRecord, ih]

theorem decodeIndex_encodeIndex (l : List SearchIndex) :
    decodeIndex (encodeIndex l) = some l := by
  simp [decodeIndex, encodeIndex, decodeList_map_encode]

/-- Claim C8: serializing the record set built by the standalone builder and
parsing it back yields that record set exactly, so a process that reloads the
snapshot answers every query's match phase identically to a process that
rescans the same unmodified corpus (the rescan being the deterministic
buildScript of that corpus). -/
theorem c8_snapshot_roundtrip (files : List (String × SourceFile)) (q : String) :
    decodeIndex (encodeIndex (buildScript files)) = some (buildScript files) ∧
      matchPhase q ((decodeIndex (encodeIndex (buildScript files))).getD []) =
        matchPhase q (buildScript files) := by
  refine ⟨decodeIndex_encodeIndex _, ?_⟩
  rw [decodeIndex_encodeIndex]
  rfl

/-- The fallback scan never touches the rate-limit table. -/
theorem scanBuild_rate (env : Env) (s : Sys) : (scanBuild env s).rate = s.rate := by
  unfold scanBuild
  split <;> rfl

theorem scanBuild_isSome (env : Env) (s : Sys) : (scanBuild env s).index.isSome = true := by
  unfold scanBuild
  split <;> rfl

/-- The fallback scan only appends scan and read events. -/
theorem scanBuild_events_rc (env : Env) (s : Sys) (ip : String)
    (h : Ev.rateCheck ip ∈ (scanBuild env s).events) : Ev.rateCheck ip ∈ s.events := by
  unfold scanBuild at h
  split at h
  · exact h
  · simpa using h

theorem buildIndex_rate (env : Env) (s : Sys) : (buildIndex env s).rate = s.rate := by
  unfold buildIndex
  by_cases hg : (s.index.isSome || s.isIndexing) = true
  · simp [hg]
  · rw [if_neg hg]
    cases hsnap : env.snapshot with
    | none => rw [scanBuild_rate]
    | some sp =>
      cases sp with
      | corrupt => rw [scanBuild_rate]
      | parsed l => rfl

theorem buildIndex_events_rc (env : Env) (s : Sys) (ip : String)
    (h : Ev.rateCheck ip ∈ (buildIndex env s).events) : Ev.rateCheck ip ∈ s.events := by
  unfold buildIndex at h
  by_cases hg : (s.index.isSome || s.isIndexing) = true
  · rw [if_pos hg] at h; exact h
  · rw [if_neg hg] at h
    cases hsnap : env.snapshot with
    | none =>
      rw [hsnap] at h
      have h2 : Ev.rateCheck ip ∈ (scanBuild env { s with isIndexing := true }).events := h
      exact scanBuild_events_rc env { s with isIndexing := true } ip h2
    | some sp =>
      rw [hsnap] at h
      cases sp with
      | corrupt =>
        have h2 : Ev.rateCheck ip ∈
            (scanBuild env
              { s with isIndexing := true, events := s.events ++ [Ev.loadSnapshot] }).events := h
        have h3 := scanBuild_events_rc env _ ip h2
        simpa using h3
      | parsed l =>
        have h2 : Ev.rateCheck ip ∈ s.events ++ [Ev.loadSnapshot] := h
        simpa using h2

theorem buildIndex_isSome (env : Env) (s : Sys) (hflag : s.isIndexing = false) :
    (buildIndex env s).index.isSome = true := by
  unfold buildIndex
  by_cases hg : (s.index.isSome || s.isIndexing) = true
  · rw [if_pos hg]
    simpa [hflag] using hg
  · rw [if_neg hg]
    cases env.snapshot with
    | none => exact scanBuild_isSome _ _
    | some sp =>
      cases sp with
      | corrupt => exact scanBuild_isSome _ _
      | parsed l => rfl

/-- Detail resolution threads the state through reads only: the rate table is
untouched. -/
theorem resolveAll_rate (env : Env) :
    ∀ (g : List (String × List Nat)) (s : Sys), (resolveAll env s g).2.rate = s.rate := by
  intro g
  induction g with
  | nil => intro s; rfl
  | cons fg rest ih =>
    intro s
    obtain ⟨f, idxs⟩ := fg
    simp only [resolveAll]
    rw [ih]

theorem resolveAll_events_rc (env : Env) (ip : String) :
    ∀ (g : List (String × List Nat)) (s : Sys),
      Ev.rateCheck ip ∈ (resolveAll env s g).2.events → Ev.rateCheck ip ∈ s.events := by
  intro g
  induction g with
  | nil => intro s h; exact h
  | cons fg rest ih =>
    intro s h
    obtain ⟨f, idxs⟩ := fg
    simp only [resolveAll] at h
    have h2 := ih _ h
    simpa using h2

/-- Claim C9: a privileged (logged-in) caller with a query of length at least
2 bypasses rate limiting entirely: the rate-limit table is not read or
mutated (it is returned unchanged and no rate-check event is added to the
trace), and the returned metadata carries the sentinel remaining -1
(distinct from every non-negative quota count) with isPremium true.  The
state hypothesis (index set or building flag clear) holds in every state a
sequential execution can reach; its failure would require observing a build
in flight, i.e. concurrent overlap. -/
theorem c9_privileged_bypass (env : Env) (q : String) (s : Sys) (hlen : 2 ≤ q.length)
    (hinv : s.index.isSome = true ∨ s.isIndexing = false) :
    (searchCompanies env q true s).1.remaining = some (-1) ∧
      (searchCompanies env q true s).1.isPremium = some true ∧
      (searchCompanies env q true s).2.rate = s.rate ∧
      (∀ ip, Ev.rateCheck ip ∈ (searchCompanies env q true s).2.events →
        Ev.rateCheck ip ∈ s.events) := by
  have hq : ¬ q.length < 2 := by omega
  have hsc : searchCompanies env q true s = searchBody env q true (-1) s := by
    simp [searchCompanies, hq]
  set s1 := if s.index.isNone then buildIndex env s else s with hs1
  have hs1Some : s1.index.isSome = true := by
    rw [hs1]
    cases hidx : s.index with
    | some l => simp [hidx]
    | none =>
      have hflag : s.isIndexing = false := by
        rcases hinv with h | h
        · rw [hidx] at h; simp at h
        · exact h
      simp only [hidx, Option.isNone_none, if_true]
      exact buildIndex_isSome env s hflag
  have hs1rate : s1.rate = s.rate := by
    rw [hs1]
    split
    · exact buildIndex_rate env s
    · rfl
  have hs1ev : ∀ ip, Ev.rateCheck ip ∈ s1.events → Ev.rateCheck ip ∈ s.events := by
    intro ip h
    rw [hs1] at h
    by_cases hn : s.index.isNone
    · rw [if_pos hn] at h
      exact buildIndex_events_rc env s ip h
    · rw [if_neg hn] at h
      exact h
  obtain ⟨l, hl⟩ := Option.isSome_iff_exists.mp hs1Some
  have hbody : searchBody env q true (-1) s =
      ({ results := (resolveAll env s1 (groupByFile (matchPhase (strLower q) l))).1,
         error := none, remaining := some (-1), isPremium := some true },
        (resolveAll env s1 (groupByFile (matchPhase (strLower q) l))).2) := by
    rw [searchBody]
    rw [← hs1, hl]
  rw [hsc, hbody]
  refine ⟨rfl, rfl, ?_, ?_⟩
  · rw [resolveAll_rate, hs1rate]
  · intro ip h
    exact hs1ev ip (resolveAll_events_rc env ip _ _ h)

def sysReady : Sys := { index := some [], isIndexing := false, rate := [], events := [] }

theorem c9_privileged_bypass_witness :
    (2 ≤ "ab".length ∧ (sysReady.index.isSome = true ∨ sysReady.isIndexing = false)) ∧
      ((searchCompanies env0 "ab" true sysReady).1.remaining = some (-1) ∧
        (searchCompanies env0 "ab" true sysReady).1.isPremium = some true ∧
        (searchCompanies env0 "ab" true sysReady).2.rate = sysReady.rate ∧
        (∀ ip, Ev.rateCheck ip ∈ (searchCompanies env0 "ab" true sysReady).2.events →
          Ev.rateCheck ip ∈ sysReady.events)) :=
  ⟨⟨by decide, Or.inl (by decide)⟩,
    c9_privileged_bypass env0 "ab" sysReady (by decide) (Or.inl (by decide))⟩

/-- A list position at or beyond the length holds nothing. -/
theorem get?_none_of_len_le {α : Type} : ∀ (l : List α) (i : Nat), l.length ≤ i → l.get? i = none := by
  intro l
  induction l with
  | nil => intro i _; cases i <;> rfl
  | cons a rest ih =>
    intro i h
    cases i with
    | zero => simp at h
    | succ j => simpa [List.get?] using ih j (by simpa using h)

/-- Claim C10: during batch detail resolution, an offset with no corresponding
row in the parsed row sequence is skipped silently: it contributes no result
row, the function returns normally, and every other requested offset is still
resolved exactly as it would have been without the stray offset. -/
theorem c10_out_of_range_skip (f : String) (rows : List Row) (i : Nat)
    (xs ys : List Nat) (h : rows.length ≤ i) :
    resolveBatch f rows (xs ++ i :: ys) = resolveBatch f rows (xs ++ ys) := by
  induction xs with
  | nil =>
    simp only [List.nil_append, resolveBatch]
    rw [get?_none_of_len_le rows i h]
  | cons x rest ih =>
    simp only [List.cons_append, resolveBatch]
    cases rows.get? x with
    | none => exact ih
    | some row => exact congrArg (fun t => mkCompany f x row :: t) ih

theorem c10_out_of_range_skip_witness :
    ([[("Name", "Acme")]] : List Row).length ≤ 7 ∧
      resolveBatch "b.json" [[("Name", "Acme")]] ([0] ++ 7 :: [0]) =
        resolveBatch "b.json" [[("Name", "Acme")]] ([0] ++ [0]) :=
  ⟨by decide, c10_out_of_range_skip "b.json" [[("Name", "Acme")]] 7 [0] [0] (by decide)⟩

end CompanyExplorer
